import Mathlib

/-!
Verification of the minecraft-console backend (Rust, `src/backend/src`).

The development shallowly embeds the process supervisor (`MinecraftServer` in
`server/minecraft_server.rs`), the shared state and broadcast hub (`AppState`
in `state.rs`), the log-broadcaster loop of `main.rs` and the websocket
session heartbeat of `websocket/console_socket.rs`.

Modelling conventions:
* Fallible I/O operations (spawn, write, flush, kill, wait) take explicit
  Boolean environment flags deciding whether the underlying OS call succeeds;
  the control flow following each outcome is translated from the Rust source.
* A tokio unbounded channel is modelled as its queue of delivered messages
  together with a flag telling whether the receiving end is still alive
  (`send` on a channel whose receiver was dropped fails, as in tokio).
* The `HashMap<usize, UnboundedSender<String>>` of subscribers is modelled as
  an association list with (invariantly) unique keys.
* Machine integers (`usize`) are modelled as `Nat`; the client-id counter
  never remotely approaches `usize::MAX` so wrapping is irrelevant.
-/

deriving instance DecidableEq for Except

namespace MinecraftConsole

/-- Errors surfaced by the supervisor, mirroring `std::io::Error` values the
Rust code constructs or propagates.  `notConnected` carries the message of the
`ErrorKind::NotConnected` errors built in `state.rs` / `minecraft_server.rs`;
`osFailure` stands for an error returned by the operating system from a
spawn/write/flush/kill/wait call and propagated with `?`. -/
inductive IOError where
  | notConnected (msg : String)
  | osFailure
deriving DecidableEq, Repr

/-- The piped stdin of the child process: `pending` are chunks written with
`write_all` but not yet flushed, `flushed` are chunks pushed to the process by
`flush`.  Chunks are recorded verbatim, so "exactly these bytes were written"
is directly observable. -/
structure ChildStdin where
  pending : List String
  flushed : List String
deriving DecidableEq, Repr

/-- `write_all`: append one chunk to the unflushed data. -/
def ChildStdin.write_all (sin : ChildStdin) (chunk : String) : ChildStdin :=
  { sin with pending := sin.pending ++ [chunk] }

/-- `flush`: push all pending chunks through. -/
def ChildStdin.flush (sin : ChildStdin) : ChildStdin :=
  { pending := [], flushed := sin.flushed ++ sin.pending }

/-- A spawned child process (`tokio::process::Child`), reduced to the part the
claims observe: its piped stdin handle (`None` when not piped / taken). -/
structure Child where
  stdin : Option ChildStdin
deriving DecidableEq, Repr

/-- `MinecraftServer` from `server/minecraft_server.rs`: the child process
handle, `None` when not running.  (The `log_sender` field is the hub-facing
channel; its traffic is modelled at the `AppState` level.) -/
structure MinecraftServer where
  child : Option Child
deriving DecidableEq, Repr

/-- `MinecraftServer::start`: spawns the child with piped stdin/stdout/stderr
and spawns one line-reader task for stdout and one for stderr.  The
environment flag `spawnOk` decides whether `command.spawn()` succeeds.  On
success the result carries the server (child present, fresh piped stdin) and
the number of line-reader tasks spawned during the call (2: stdout and
stderr); on failure `?` returns the error before any task is spawned. -/
def MinecraftServer.start (spawnOk : Bool) :
    Except IOError (MinecraftServer × Nat) :=
  if spawnOk then
    .ok ({ child := some { stdin := some { pending := [], flushed := [] } } }, 2)
  else
    .error .osFailure

/-- Environment for one `stop` call: whether the stdin write, the flush, the
kill and the exit-wait succeed at the OS level. -/
structure StopEnv where
  writeOk : Bool
  flushOk : Bool
  killOk : Bool
  waitOk : Bool
deriving DecidableEq, Repr

/-- Outcome of `MinecraftServer::stop`: the server after the call (the Rust
method mutates `self`), the returned `Result`, and whether the forceful-kill
fallback (`child.kill()`) was invoked. -/
structure StopResult where
  server : MinecraftServer
  result : Except IOError Unit
  killed : Bool
deriving DecidableEq, Repr

/-- `MinecraftServer::stop`, translated clause by clause from
`minecraft_server.rs` lines 101-116:
if there is no child, return `Ok`; otherwise, if stdin is available, do
`write_all(b"stop\n")?` then `flush()?` (each failure propagates with `?`);
if stdin is unavailable, fall back to `kill().await?`; then `wait().await?`,
and only after a successful wait set `self.child = None`. -/
def MinecraftServer.stop (env : StopEnv) (s : MinecraftServer) : StopResult :=
  match s.child with
  | none => { server := s, result := .ok (), killed := false }
  | some child =>
    match child.stdin with
    | some sin =>
      if env.writeOk then
        let sin := sin.write_all "stop\n"
        if env.flushOk then
          let sin := sin.flush
          if env.waitOk then
            { server := { child := none }, result := .ok (), killed := false }
          else
            { server := { child := some { stdin := some sin } },
              result := .error .osFailure, killed := false }
        else
          { server := { child := some { stdin := some sin } },
            result := .error .osFailure, killed := false }
      else
        { server := s, result := .error .osFailure, killed := false }
    | none =>
      if env.killOk then
        if env.waitOk then
          { server := { child := none }, result := .ok (), killed := true }
        else
          { server := s, result := .error .osFailure, killed := true }
      else
        { server := s, result := .error .osFailure, killed := true }

/-- `MinecraftServer::send_command` (`minecraft_server.rs` lines 133-146):
with a live child whose stdin is available, `write_all((command + "\n"))?`
then `flush()?` and return `Ok`; otherwise fall through to the
`NotConnected` error. -/
def MinecraftServer.send_command (s : MinecraftServer)
    (writeOk flushOk : Bool) (command : String) :
    MinecraftServer × Except IOError Unit :=
  match s.child with
  | some child =>
    match child.stdin with
    | some sin =>
      if writeOk then
        let sin := sin.write_all (command ++ "\n")
        if flushOk then
          ({ child := some { stdin := some sin.flush } }, .ok ())
        else
          ({ child := some { stdin := some sin } }, .error .osFailure)
      else
        (s, .error .osFailure)
    | none =>
      (s, .error (.notConnected "Server is not running or stdin is not available"))
  | none =>
    (s, .error (.notConnected "Server is not running or stdin is not available"))

/-- `MinecraftServer::is_running`. -/
def MinecraftServer.is_running (s : MinecraftServer) : Bool :=
  s.child.isSome

/-- One per-client delivery channel (`tokio::sync::mpsc::unbounded_channel`):
`receiverAlive` is false once the receiving end has been dropped, `buf` is the
queue of messages delivered so far, in delivery order. -/
structure Chan where
  receiverAlive : Bool
  buf : List String
deriving DecidableEq, Repr

/-- `UnboundedSender::send`: enqueue if the receiver is alive, fail otherwise. -/
def Chan.send (c : Chan) (m : String) : Option Chan :=
  if c.receiverAlive then some { c with buf := c.buf ++ [m] } else none

/-- `AppState` from `state.rs`: the optional supervisor and the subscriber
table.  `tasksSpawned` is instrumentation: it counts line-reader tasks
spawned by successful starts (the Rust tasks are side effects of
`MinecraftServer::start`). -/
structure AppState where
  minecraft_server : Option MinecraftServer
  subscribers : List (Nat × Chan)
  tasksSpawned : Nat
deriving DecidableEq, Repr

/-- `AppState::new`. -/
def AppState.new : AppState :=
  { minecraft_server := none, subscribers := [], tasksSpawned := 0 }

/-- `AppState::is_running` (`state.rs` lines 54-56). -/
def AppState.is_running (st : AppState) : Bool :=
  st.minecraft_server.isSome

/-- `AppState::start_minecraft` (`state.rs` lines 36-42): if no server is
stored, call `MinecraftServer::start` and store the result (`?` propagates a
spawn failure leaving the state untouched); if a server is already stored, do
nothing and return `Ok`. -/
def AppState.start_minecraft (st : AppState) (spawnOk : Bool) :
    AppState × Except IOError Unit :=
  match st.minecraft_server with
  | some _ => (st, .ok ())
  | none =>
    match MinecraftServer.start spawnOk with
    | .ok (server, readers) =>
      ({ st with minecraft_server := some server,
                 tasksSpawned := st.tasksSpawned + readers }, .ok ())
    | .error e => (st, .error e)

/-- `AppState::stop_minecraft` (`state.rs` lines 45-51): with a stored server,
call `server.stop()`; `?` propagates its failure (keeping the mutated server
stored), and only on success is the slot cleared; with no server stored,
return `Ok`. -/
def AppState.stop_minecraft (st : AppState) (env : StopEnv) :
    AppState × Except IOError Unit :=
  match st.minecraft_server with
  | none => (st, .ok ())
  | some server =>
    let r := server.stop env
    match r.result with
    | .ok _ => ({ st with minecraft_server := none }, .ok ())
    | .error e => ({ st with minecraft_server := some r.server }, .error e)

/-- `AppState::send_command` (`state.rs` lines 59-68): delegate to the stored
server, or fail with the `NotConnected` "Minecraft server is not running"
error when none is stored. -/
def AppState.send_command (st : AppState) (writeOk flushOk : Bool)
    (command : String) : AppState × Except IOError Unit :=
  match st.minecraft_server with
  | some server =>
    let (server', r) := server.send_command writeOk flushOk command
    ({ st with minecraft_server := some server' }, r)
  | none =>
    (st, .error (.notConnected "Minecraft server is not running"))

/-- `AppState::unregister_client` (`state.rs` lines 84-92): remove the entry
with the given key, if present. -/
def AppState.unregister_client (st : AppState) (client_id : Nat) : AppState :=
  { st with subscribers := st.subscribers.filter (fun p => p.1 != client_id) }

/-- One iteration of the send loop of `AppState::broadcast_log`: send the
message to the entry's channel; on success keep the updated channel, on
failure keep the entry as is and mark its id for disconnection. -/
def deliverTo (message : String) (p : Nat × Chan) : (Nat × Chan) × Option Nat :=
  match p.2.send message with
  | some c => ((p.1, c), none)
  | none => (p, some p.1)

/-- `AppState::broadcast_log` (`state.rs` lines 95-127): if there are no
subscribers do nothing; otherwise sweep over every entry sending the message
and collecting the ids whose send failed, and only after the sweep completes
unregister each collected id. -/
def AppState.broadcast_log (st : AppState) (message : String) : AppState :=
  if st.subscribers.isEmpty then st
  else
    let results := st.subscribers.map (deliverTo message)
    let disconnected_clients := results.filterMap Prod.snd
    let swept := { st with subscribers := results.map Prod.fst }
    disconnected_clients.foldl AppState.unregister_client swept

/-- `HashMap::insert`: bind `id` to `c`, replacing any previous binding. -/
def insertSub (subs : List (Nat × Chan)) (id : Nat) (c : Chan) :
    List (Nat × Chan) :=
  subs.filter (fun p => p.1 != id) ++ [(id, c)]

/-- The process-wide state: the `AppState` plus the `NEXT_CLIENT_ID` atomic
counter (`state.rs` line 10, initialised to 1). -/
structure Sys where
  st : AppState
  nextClientId : Nat
deriving DecidableEq, Repr

/-- The initial process state: `AppState::new` and `NEXT_CLIENT_ID = 1`. -/
def Sys.init : Sys :=
  { st := AppState.new, nextClientId := 1 }

/-- `AppState::register_client` (`state.rs` lines 71-81):
`fetch_add` the counter (returning its old value as the new client id), create
a fresh unbounded channel, insert the send-end under the id, and return the id
together with the receive-end.  The channel value returned is the same channel
the table's send-end feeds. -/
def Sys.register_client (sys : Sys) : (Nat × Chan) × Sys :=
  let client_id := sys.nextClientId
  let chan : Chan := { receiverAlive := true, buf := [] }
  ((client_id, chan),
   { st := { sys.st with
             subscribers := insertSub sys.st.subscribers client_id chan },
     nextClientId := sys.nextClientId + 1 })

/-- The Unicode `White_Space` property — the exact set of characters Rust's
`char::is_whitespace` recognises and `str::trim` removes: U+0009..U+000D,
U+0020, U+0085, U+00A0, U+1680, U+2000..U+200A, U+2028, U+2029, U+202F,
U+205F and U+3000. -/
def isRustWhitespace (c : Char) : Bool :=
  c.val == 0x09 || c.val == 0x0A || c.val == 0x0B || c.val == 0x0C ||
  c.val == 0x0D || c.val == 0x20 || c.val == 0x85 || c.val == 0xA0 ||
  c.val == 0x1680 || (0x2000 ≤ c.val && c.val ≤ 0x200A) ||
  c.val == 0x2028 || c.val == 0x2029 || c.val == 0x202F ||
  c.val == 0x205F || c.val == 0x3000

/-- Rust's `str::trim` on the line's character list: drop leading and
trailing Unicode whitespace.  (Spelled out structurally so that it
evaluates.) -/
def trimChars (cs : List Char) : List Char :=
  ((cs.dropWhile isRustWhitespace).reverse.dropWhile isRustWhitespace).reverse

/-- One iteration of the log-broadcaster task in `main.rs` (lines 39-56) for a
received line: trim it, skip it when the trimmed form is empty, and otherwise
hand the original line to `broadcast_log`. -/
def broadcasterStep (st : AppState) (log : String) : AppState :=
  let trimmed := trimChars log.toList
  if !trimmed.isEmpty then st.broadcast_log log else st

/-- The operations that mutate the subscriber table or the client-id counter
over the process lifetime.  `dropReceiver` models a client session dropping
the receive-end of its delivery channel (after which sends to it fail). -/
inductive HubOp where
  | register
  | unregister (id : Nat)
  | logLine (line : String)
  | dropReceiver (id : Nat)
deriving DecidableEq, Repr

/-- Drop the receive-end of the channel registered under `id`. -/
def dropReceiverIn (subs : List (Nat × Chan)) (id : Nat) :
    List (Nat × Chan) :=
  subs.map (fun p =>
    if p.1 == id then (p.1, { p.2 with receiverAlive := false }) else p)

/-- Execute one hub operation; the second component lists the client id
allocated by the operation (empty for non-registrations). -/
def Sys.stepHub (sys : Sys) : HubOp → Sys × List Nat
  | .register =>
    let (r, sys') := sys.register_client
    (sys', [r.1])
  | .unregister id =>
    ({ sys with st := sys.st.unregister_client id }, [])
  | .logLine line =>
    ({ sys with st := broadcasterStep sys.st line }, [])
  | .dropReceiver id =>
    ({ sys with st :=
       { sys.st with subscribers := dropReceiverIn sys.st.subscribers id } }, [])

/-- Execute a sequence of hub operations, collecting the allocated client ids
in order of allocation. -/
def Sys.runHub (sys : Sys) : List HubOp → Sys × List Nat
  | [] => (sys, [])
  | op :: ops =>
    let (sys', new) := sys.stepHub op
    let (sysF, ids) := sys'.runHub ops
    (sysF, new ++ ids)

/-- `HEARTBEAT_INTERVAL` (`console_socket.rs` line 20), in seconds. -/
def HEARTBEAT_INTERVAL : Nat := 5

/-- `CLIENT_TIMEOUT` (`console_socket.rs` line 22), in seconds. -/
def CLIENT_TIMEOUT : Nat := 10

/-- The websocket session state of `ConsoleWebSocket` that the heartbeat
logic touches: the instant of the last observed liveness signal, the client
id, and whether the actor is still running (`ctx.stop` clears it).  Time is
modelled by the naturals; `Instant::now() - last_heartbeat` is `Nat`
subtraction, sound because the clock is monotone. -/
structure ConsoleWebSocket where
  last_heartbeat : Nat
  client_id : Nat
  alive : Bool
deriving DecidableEq, Repr

/-- The timeout test of the `run_interval` closure in `ConsoleWebSocket::hb`
(`console_socket.rs` line 69): `now.duration_since(last_heartbeat) >
CLIENT_TIMEOUT`. -/
def hbTimedOut (now last : Nat) : Bool :=
  now - last > CLIENT_TIMEOUT

/-- Events observed by one session: a pong frame arriving at time `now`
(the `StreamHandler` resets `last_heartbeat`), or the heartbeat interval
timer firing at time `now` (the `hb` closure runs: on timeout it stops the
actor, whose `stopping` hook unregisters the client; otherwise it pings). -/
inductive WsEvent where
  | pong (now : Nat)
  | hbTick (now : Nat)
deriving DecidableEq, Repr

/-- One session event against the session and the shared state.  A stopped
actor processes no further events. -/
def stepWs (s : ConsoleWebSocket) (st : AppState) :
    WsEvent → ConsoleWebSocket × AppState
  | .pong now =>
    if s.alive then ({ s with last_heartbeat := now }, st) else (s, st)
  | .hbTick now =>
    if s.alive then
      if hbTimedOut now s.last_heartbeat then
        ({ s with alive := false }, st.unregister_client s.client_id)
      else (s, st)
    else (s, st)

/-- Run a sequence of session events. -/
def runWs (s : ConsoleWebSocket) (st : AppState) :
    List WsEvent → ConsoleWebSocket × AppState
  | [] => (s, st)
  | e :: es =>
    let (s', st') := stepWs s st e
    runWs s' st' es

/-- `true` when, along the event sequence, every heartbeat tick happens within
`CLIENT_TIMEOUT` of the latest liveness signal (`last` starts at the session's
`last_heartbeat` and is refreshed by each pong). -/
def pongsWithinTimeout (last : Nat) : List WsEvent → Bool
  | [] => true
  | .pong t :: es => pongsWithinTimeout t es
  | .hbTick t :: es => (t - last ≤ CLIENT_TIMEOUT) && pongsWithinTimeout last es

/-- One supervisor API call as issued by the routing layer, together with the
environment flags deciding the underlying OS operations. -/
inductive SrvOp where
  | start (spawnOk : Bool)
  | stop (env : StopEnv)
deriving DecidableEq, Repr

/-- Whether a call returned `Ok`. -/
def resOk : Except IOError Unit → Bool
  | .ok _ => true
  | .error _ => false

/-- Run a sequence of supervisor calls, recording for each completed call the
operation and whether it returned success. -/
def AppState.runSrv (st : AppState) :
    List SrvOp → AppState × List (SrvOp × Bool)
  | [] => (st, [])
  | op :: ops =>
    let (st', r) :=
      match op with
      | .start spawnOk => st.start_minecraft spawnOk
      | .stop env => st.stop_minecraft env
    let (stF, rs) := st'.runSrv ops
    (stF, (op, resOk r) :: rs)

/-- The literal reading of the spec sentence: the server counts as running
iff the most recent completed call was a successful start and no stop call —
successful or not — has completed since. -/
def specRunningLiteral (rs : List (SrvOp × Bool)) : Bool :=
  rs.foldl
    (fun _ r =>
      match r.1, r.2 with
      | .start _, ok => ok
      | .stop _, _ => false)
    false

/-- One call's effect on the spec-level running flag, amended reading: a
start call sets the flag to its own success; a stop call clears the flag when
it returned success and leaves it unchanged when it failed. -/
def specRunningStep (b : Bool) (r : SrvOp × Bool) : Bool :=
  match r.1, r.2 with
  | .start _, ok => ok
  | .stop _, sOk => if sOk then false else b

/-- The amended reading of the running-state specification, folded over the
completed calls. -/
def specRunning (rs : List (SrvOp × Bool)) : Bool :=
  rs.foldl specRunningStep false

/-- A server with a live child whose stdin is piped and untouched, as produced
by a successful `MinecraftServer::start`. -/
def runningServer : MinecraftServer :=
  { child := some { stdin := some { pending := [], flushed := [] } } }

/-- A running server whose stdin has the given chunks flushed through and
nothing pending. -/
def serverFlushed (chunks : List String) : MinecraftServer :=
  { child := some { stdin := some { pending := [], flushed := chunks } } }

/-- A concrete state with two registered clients, both alive. -/
def stTwo : AppState :=
  { minecraft_server := none,
    subscribers := [(1, { receiverAlive := true, buf := [] }),
                    (2, { receiverAlive := true, buf := ["x"] })],
    tasksSpawned := 0 }

/-- A concrete state with three registered clients, the second of which has
dropped its receive-end. -/
def stMixed : AppState :=
  { minecraft_server := none,
    subscribers := [(1, { receiverAlive := true, buf := [] }),
                    (2, { receiverAlive := false, buf := [] }),
                    (3, { receiverAlive := true, buf := [] })],
    tasksSpawned := 0 }

/-! ### Supervisor lemmas -/

/-- A completed `start_minecraft` call moves `is_running` exactly as the
amended spec fold does. -/
theorem start_minecraft_running (st : AppState) (spawnOk : Bool) :
    (st.start_minecraft spawnOk).1.is_running
      = specRunningStep st.is_running
          (.start spawnOk, resOk (st.start_minecraft spawnOk).2) := by
  cases hms : st.minecraft_server with
  | some server =>
    simp [AppState.start_minecraft, hms, AppState.is_running, specRunningStep, resOk]
  | none =>
    cases spawnOk <;>
      simp [AppState.start_minecraft, hms, MinecraftServer.start,
        AppState.is_running, specRunningStep, resOk]

/-- A completed `stop_minecraft` call moves `is_running` exactly as the
amended spec fold does. -/
theorem stop_minecraft_running (st : AppState) (env : StopEnv) :
    (st.stop_minecraft env).1.is_running
      = specRunningStep st.is_running
          (.stop env, resOk (st.stop_minecraft env).2) := by
  cases hms : st.minecraft_server with
  | none =>
    simp [AppState.stop_minecraft, hms, AppState.is_running, specRunningStep, resOk]
  | some server =>
    cases hr : (server.stop env).result <;>
      simp [AppState.stop_minecraft, hms, hr, AppState.is_running,
        specRunningStep, resOk]

/-- Along any run of supervisor calls, `is_running` equals the amended spec
fold started from the initial running state. -/
theorem runSrv_is_running (st : AppState) (ops : List SrvOp) :
    (st.runSrv ops).1.is_running
      = (st.runSrv ops).2.foldl specRunningStep st.is_running := by
  induction ops generalizing st with
  | nil => rfl
  | cons op ops ih =>
    cases op with
    | start spawnOk =>
      have h := start_minecraft_running st spawnOk
      simp only [AppState.runSrv, List.foldl_cons]
      rw [ih, ← h]
    | stop env =>
      have h := stop_minecraft_running st env
      simp only [AppState.runSrv, List.foldl_cons]
      rw [ih, ← h]

/-! ### Claim C1 -/

/-- C1 (corrected), counterexample to the claim as stated: after the run
`start` (successful) then `stop` (whose stdin write fails at the OS level,
so `stop_minecraft` propagates the error and keeps the handle), a stop call
has completed after the most recent successful start, yet `is_running()` is
still true — contradicting the claimed "iff". -/
theorem c1_running_iff_counterexample :
    (AppState.new.runSrv
        [.start true, .stop { writeOk := false, flushOk := true,
                              killOk := true, waitOk := true }]).1.is_running = true ∧
    specRunningLiteral
      (AppState.new.runSrv
        [.start true, .stop { writeOk := false, flushOk := true,
                              killOk := true, waitOk := true }]).2 = false := by
  decide

/-- C1 (amended): for every finite sequence of completed
`start_minecraft`/`stop_minecraft` calls, `is_running()` is true iff the most
recent completed call was a successful start and no subsequent stop has
completed *successfully* (a failed stop leaves the running state unchanged);
moreover calling start while running, or stop while stopped, leaves the state
unchanged and returns success. -/
theorem c1_running_iff (ops : List SrvOp) (st : AppState)
    (spawnOk : Bool) (env : StopEnv) :
    (AppState.new.runSrv ops).1.is_running
      = specRunning (AppState.new.runSrv ops).2 ∧
    (st.is_running = true → st.start_minecraft spawnOk = (st, .ok ())) ∧
    (st.is_running = false → st.stop_minecraft env = (st, .ok ())) := by
  refine ⟨?_, fun hrun => ?_, fun hstop => ?_⟩
  · rw [runSrv_is_running]; rfl
  · cases hms : st.minecraft_server with
    | some server => simp [AppState.start_minecraft, hms]
    | none => simp [AppState.is_running, hms] at hrun
  · cases hms : st.minecraft_server with
    | some server => simp [AppState.is_running, hms] at hstop
    | none => simp [AppState.stop_minecraft, hms]

/-- C1 witness: the run conjunct instantiated on a concrete one-call run, and
the two idempotence conjuncts instantiated on a concrete running state and on
the concrete stopped state respectively. -/
theorem c1_running_iff_witness :
    ((AppState.new.runSrv [.start true]).1.is_running
      = specRunning (AppState.new.runSrv [.start true]).2) ∧
    ({ minecraft_server := some runningServer, subscribers := [],
       tasksSpawned := 2 : AppState }.start_minecraft true
      = ({ minecraft_server := some runningServer, subscribers := [],
           tasksSpawned := 2 }, .ok ())) ∧
    (AppState.new.stop_minecraft
        { writeOk := true, flushOk := true, killOk := true, waitOk := true }
      = (AppState.new, .ok ())) :=
  ⟨(c1_running_iff [.start true] AppState.new true
      { writeOk := true, flushOk := true, killOk := true, waitOk := true }).1,
   (c1_running_iff []
      { minecraft_server := some runningServer, subscribers := [], tasksSpawned := 2 }
      true { writeOk := true, flushOk := true, killOk := true, waitOk := true }).2.1
     (by decide),
   (c1_running_iff [] AppState.new true
      { writeOk := true, flushOk := true, killOk := true, waitOk := true }).2.2
     (by decide)⟩

/-! ### Claim C2 -/

/-- C2 (corrected), counterexample to the claim as stated, on a live handle
with piped stdin: (i) when the stdin write of the termination command fails,
`stop` does not fall back to killing the process — it propagates the error and
keeps the handle; (ii) when the write and flush succeed but the exit-wait
fails, the error *is* propagated to the caller and the handle is *not*
dropped. -/
theorem c2_stop_fallback_counterexample :
    ((runningServer.stop
        { writeOk := false, flushOk := true, killOk := true, waitOk := true }).killed
        = false ∧
     (runningServer.stop
        { writeOk := false, flushOk := true, killOk := true, waitOk := true }).result
        = .error .osFailure ∧
     (runningServer.stop
        { writeOk := false, flushOk := true, killOk := true, waitOk := true }).server.child
        ≠ none) ∧
    ((runningServer.stop
        { writeOk := true, flushOk := true, killOk := true, waitOk := false }).result
        = .error .osFailure ∧
     (runningServer.stop
        { writeOk := true, flushOk := true, killOk := true, waitOk := false }).server.child
        ≠ none) := by
  decide

/-- C2 (amended): for every `stop()` call on a live process handle:
the forceful-kill fallback is taken exactly when stdin is unavailable; if
stdin is available but the write of the termination command fails, the error
is propagated, the process is not killed and the handle is kept unchanged; if
the write and flush succeed but the exit-wait fails, that failure is
propagated and the handle is retained; and the handle is dropped (set to
`None`) precisely when the call returns success. -/
theorem c2_stop_behaviour (env : StopEnv) (s : MinecraftServer) (c : Child)
    (h : s.child = some c) :
    ((s.stop env).killed = true ↔ c.stdin = none) ∧
    (c.stdin ≠ none → env.writeOk = false →
      s.stop env = { server := s, result := .error .osFailure, killed := false }) ∧
    (c.stdin ≠ none → env.writeOk = true → env.flushOk = true →
      env.waitOk = false →
      (s.stop env).result = .error .osFailure ∧ (s.stop env).server.child ≠ none) ∧
    ((s.stop env).result = .ok () ↔ (s.stop env).server.child = none) := by
  obtain ⟨child⟩ := s
  cases h
  obtain ⟨writeOk, flushOk, killOk, waitOk⟩ := env
  cases hsin : c.stdin with
  | none =>
    cases killOk <;> cases waitOk <;>
      simp [MinecraftServer.stop, hsin]
  | some sin =>
    cases writeOk <;> cases flushOk <;> cases waitOk <;>
      simp [MinecraftServer.stop, hsin, ChildStdin.write_all, ChildStdin.flush]

/-- C2 witness: the amended behaviour instantiated on the concrete fresh
running server and an environment where every OS operation succeeds. -/
theorem c2_stop_behaviour_witness :
    ((runningServer.stop
        { writeOk := true, flushOk := true, killOk := true, waitOk := true }).result
      = .ok ()
      ↔ (runningServer.stop
          { writeOk := true, flushOk := true, killOk := true, waitOk := true
            }).server.child = none) :=
  (c2_stop_behaviour
    { writeOk := true, flushOk := true, killOk := true, waitOk := true }
    runningServer { stdin := some { pending := [], flushed := [] } } rfl).2.2.2

/-! ### Claim C5 -/

/-- C5 (confirmed): `send_command` while no process is stored fails with the
`NotConnected` "Minecraft server is not running" error (the spec's
`NotRunning`) and leaves the state unchanged — for any command and any I/O
environment; and after a successful start from the stopped state,
`send_command cmd` (with the OS write and flush succeeding, as they do on the
fresh pipe) appends exactly the chunk `cmd ++ "\n"` to the child's flushed
stdin, leaving nothing pending (i.e. flushed immediately). -/
theorem c5_send_command (st : AppState) (writeOk flushOk : Bool) (cmd : String)
    (h : st.minecraft_server = none) :
    st.send_command writeOk flushOk cmd
      = (st, .error (.notConnected "Minecraft server is not running")) ∧
    (st.start_minecraft true).1.send_command true true cmd
      = ({ st with
            minecraft_server := some (serverFlushed [cmd ++ "\n"]),
            tasksSpawned := st.tasksSpawned + 2 }, .ok ()) := by
  constructor
  · simp [AppState.send_command, h]
  · simp [AppState.start_minecraft, h, MinecraftServer.start,
      AppState.send_command, MinecraftServer.send_command,
      ChildStdin.write_all, ChildStdin.flush, serverFlushed]

/-- C5 witness: on the initial state, with the command `"foo"`, the error and
the written bytes `"foo\n"` are observed concretely. -/
theorem c5_send_command_witness :
    AppState.new.send_command true true "foo"
      = (AppState.new, .error (.notConnected "Minecraft server is not running")) ∧
    (AppState.new.start_minecraft true).1.send_command true true "foo"
      = ({ AppState.new with
            minecraft_server := some (serverFlushed ["foo\n"]),
            tasksSpawned := 2 }, .ok ()) :=
  c5_send_command AppState.new true true "foo" rfl

/-! ### Claim C6 -/

/-- C6 (confirmed): when the executable cannot be spawned, `start_minecraft`
returns the spawn error and the state is unchanged from stopped: the full
`AppState` is returned as it was, so no process handle is stored,
`is_running()` remains false, and no line-reader task has been spawned (the
instrumentation counter is unchanged). -/
theorem c6_spawn_failure (st : AppState) (h : st.minecraft_server = none) :
    st.start_minecraft false = (st, .error .osFailure) ∧
    (st.start_minecraft false).1.is_running = false ∧
    (st.start_minecraft false).1.tasksSpawned = st.tasksSpawned := by
  refine ⟨?_, ?_, ?_⟩ <;>
    simp [AppState.start_minecraft, h, MinecraftServer.start, AppState.is_running]

/-- C6 witness: the spawn failure observed concretely on the initial state. -/
theorem c6_spawn_failure_witness :
    AppState.new.start_minecraft false = (AppState.new, .error .osFailure) ∧
    (AppState.new.start_minecraft false).1.is_running = false ∧
    (AppState.new.start_minecraft false).1.tasksSpawned = AppState.new.tasksSpawned :=
  c6_spawn_failure AppState.new rfl

/-! ### Broadcast-hub lemmas -/

/-- Unregistering a list of ids one after the other filters out exactly the
entries whose key is among those ids. -/
theorem foldl_unregister_subscribers (ids : List Nat) (st : AppState) :
    (ids.foldl AppState.unregister_client st).subscribers
      = st.subscribers.filter (fun p => !ids.contains p.1) := by
  induction ids generalizing st with
  | nil => simp
  | cons i is ih =>
    rw [List.foldl_cons, ih]
    show (st.subscribers.filter _).filter _ = _
    rw [List.filter_filter]
    apply List.filter_congr
    intro p _
    by_cases hpi : p.1 = i
    · subst hpi; simp [Bool.and_comm]
    · simp [hpi, bne_iff_ne, Bool.and_comm]

/-- Closed form for the subscriber table after a broadcast: every entry goes
through the delivery attempt, and then exactly the entries whose id was marked
disconnected are removed. -/
theorem broadcast_log_subscribers (st : AppState) (m : String) :
    (st.broadcast_log m).subscribers
      = (st.subscribers.map (fun p => (deliverTo m p).1)).filter
          (fun p =>
            !(st.subscribers.filterMap (fun q => (deliverTo m q).2)).contains p.1) := by
  unfold AppState.broadcast_log
  cases hne : st.subscribers.isEmpty
  · simp only [hne, Bool.false_eq_true, if_false]
    rw [foldl_unregister_subscribers]
    simp [List.filterMap_map, List.map_map, Function.comp_def]
  · rw [List.isEmpty_iff] at hne
    simp [hne]

/-- When every registered channel still has its receiver, a broadcast appends
the message to every channel and removes nobody. -/
theorem broadcast_log_all_alive (st : AppState) (m : String)
    (hAll : ∀ p ∈ st.subscribers, p.2.receiverAlive = true) :
    (st.broadcast_log m).subscribers
      = st.subscribers.map
          (fun p => (p.1, { p.2 with buf := p.2.buf ++ [m] })) := by
  rw [broadcast_log_subscribers]
  have hdel : ∀ p ∈ st.subscribers,
      deliverTo m p = ((p.1, { p.2 with buf := p.2.buf ++ [m] }), none) := by
    intro p hp
    simp [deliverTo, Chan.send, hAll p hp]
  have hdis : st.subscribers.filterMap (fun q => (deliverTo m q).2) = [] := by
    rw [List.filterMap_eq_nil_iff]
    intro q hq
    rw [hdel q hq]
  rw [hdis]
  have hmap : st.subscribers.map (fun p => (deliverTo m p).1)
      = st.subscribers.map (fun p => (p.1, { p.2 with buf := p.2.buf ++ [m] })) := by
    apply List.map_congr_left
    intro p hp
    rw [hdel p hp]
  rw [hmap]
  simp

/-- A registered entry whose channel is still alive survives a broadcast with
the message appended, provided the table's keys are unique. -/
theorem mem_broadcast_log_of_alive (st : AppState) (m : String) (p : Nat × Chan)
    (hnd : (st.subscribers.map Prod.fst).Nodup)
    (hp : p ∈ st.subscribers) (ha : p.2.receiverAlive = true) :
    (p.1, { p.2 with buf := p.2.buf ++ [m] }) ∈ (st.broadcast_log m).subscribers := by
  rw [broadcast_log_subscribers]
  rw [List.mem_filter]
  constructor
  · exact List.mem_map.mpr ⟨p, hp, by simp [deliverTo, Chan.send, ha]⟩
  · suffices hns : p.1 ∉ st.subscribers.filterMap (fun q => (deliverTo m q).2) by
      simpa using hns
    intro hmem
    obtain ⟨q, hq, hq2⟩ := List.mem_filterMap.mp hmem
    have hqdead : q.2.receiverAlive = false := by
      by_contra hqa
      rw [Bool.not_eq_false] at hqa
      simp [deliverTo, Chan.send, hqa] at hq2
    have hq1 : q.1 = p.1 := by
      simp [deliverTo, Chan.send, hqdead] at hq2
      exact hq2
    have : q = p := by
      have := List.inj_on_of_nodup_map hnd hq hp
      exact this (by rw [hq1])
    rw [this] at hqdead
    rw [ha] at hqdead
    exact Bool.true_eq_false.mp hqdead

/-- An entry whose receiver is gone is absent from the table immediately after
a broadcast: its id is marked during the sweep and unregistered afterwards. -/
theorem not_mem_broadcast_log_of_dead (st : AppState) (m : String)
    (idd : Nat) (cd : Chan)
    (h0 : (idd, cd) ∈ st.subscribers) (hd : cd.receiverAlive = false) :
    ∀ c : Chan, (idd, c) ∉ (st.broadcast_log m).subscribers := by
  intro c hc
  rw [broadcast_log_subscribers] at hc
  rw [List.mem_filter] at hc
  obtain ⟨-, hpred⟩ := hc
  have hns : idd ∉ st.subscribers.filterMap (fun q => (deliverTo m q).2) := by
    simpa using hpred
  apply hns
  exact List.mem_filterMap.mpr ⟨(idd, cd), h0, by simp [deliverTo, Chan.send, hd]⟩

/-! ### Claim C3 -/

/-- C3 (confirmed): when every one of the N registered clients' channels is
still open, one `broadcast_log` of line `m` appends exactly one copy of `m` to
every client's channel (the table after the call is exactly the table before,
with `m` appended to each buffer), and two successive broadcasts append the
two lines to every channel in broadcast order. -/
theorem c3_broadcast_exactly_once (st : AppState)
    (hAll : ∀ p ∈ st.subscribers, p.2.receiverAlive = true) :
    (∀ m, (st.broadcast_log m).subscribers
        = st.subscribers.map
            (fun p => (p.1, { p.2 with buf := p.2.buf ++ [m] }))) ∧
    (∀ m₁ m₂, ((st.broadcast_log m₁).broadcast_log m₂).subscribers
        = st.subscribers.map
            (fun p => (p.1, { p.2 with buf := p.2.buf ++ [m₁, m₂] }))) := by
  have h1 := fun m => broadcast_log_all_alive st m hAll
  refine ⟨h1, fun m₁ m₂ => ?_⟩
  have hAll2 : ∀ p ∈ (st.broadcast_log m₁).subscribers,
      p.2.receiverAlive = true := by
    intro p hp
    rw [h1 m₁] at hp
    obtain ⟨q, hq, rfl⟩ := List.mem_map.mp hp
    exact hAll q hq
  rw [broadcast_log_all_alive _ m₂ hAll2, h1 m₁, List.map_map]
  apply List.map_congr_left
  intro p _
  simp

/-- C3 witness: broadcasting `"L"` to the two-client state delivers exactly
one copy to each channel, after the lines already delivered. -/
theorem c3_broadcast_exactly_once_witness :
    (stTwo.broadcast_log "L").subscribers
      = [(1, { receiverAlive := true, buf := ["L"] }),
         (2, { receiverAlive := true, buf := ["x", "L"] })] := by
  rw [(c3_broadcast_exactly_once stTwo (by decide)).1 "L"]
  rfl

/-! ### Claim C4 -/

/-- C4 (confirmed): if a client's delivery channel lost its receiver before a
broadcast, then immediately after `broadcast_log` that client's id is absent
from the subscriber table (its id is marked during the send sweep and
unregistered after the sweep over all entries completes), and the failure is
invisible to every other client: each registered client whose channel is open
still receives the line. -/
theorem c4_dead_subscriber_pruned (st : AppState) (m : String)
    (idd : Nat) (cd : Chan)
    (hnd : (st.subscribers.map Prod.fst).Nodup)
    (h0 : (idd, cd) ∈ st.subscribers)
    (hd : cd.receiverAlive = false) :
    (∀ c : Chan, (idd, c) ∉ (st.broadcast_log m).subscribers) ∧
    (∀ p ∈ st.subscribers, p.2.receiverAlive = true →
      (p.1, { p.2 with buf := p.2.buf ++ [m] })
        ∈ (st.broadcast_log m).subscribers) :=
  ⟨not_mem_broadcast_log_of_dead st m idd cd h0 hd,
   fun p hp ha => mem_broadcast_log_of_alive st m p hnd hp ha⟩

/-- C4 witness: in the mixed state, after broadcasting `"L"` the dead client 2
is gone from the table while clients 1 and 3 have received `"L"`. -/
theorem c4_dead_subscriber_pruned_witness :
    ((2 : Nat), ({ receiverAlive := false, buf := [] } : Chan))
        ∉ (stMixed.broadcast_log "L").subscribers ∧
    ((1 : Nat), ({ receiverAlive := true, buf := ["L"] } : Chan))
        ∈ (stMixed.broadcast_log "L").subscribers ∧
    ((3 : Nat), ({ receiverAlive := true, buf := ["L"] } : Chan))
        ∈ (stMixed.broadcast_log "L").subscribers :=
  ⟨(c4_dead_subscriber_pruned stMixed "L" 2 { receiverAlive := false, buf := [] }
      (by decide) (by decide) rfl).1 _,
   (c4_dead_subscriber_pruned stMixed "L" 2 { receiverAlive := false, buf := [] }
      (by decide) (by decide) rfl).2
     (1, { receiverAlive := true, buf := [] }) (by decide) rfl,
   (c4_dead_subscriber_pruned stMixed "L" 2 { receiverAlive := false, buf := [] }
      (by decide) (by decide) rfl).2
     (3, { receiverAlive := true, buf := [] }) (by decide) rfl⟩

/-! ### Claim C9 -/

/-- C9 (confirmed): the broadcaster loop drops a received line silently — the
state, including every delivery channel, is untouched — exactly when its
whitespace-trimmed form is empty; any other line is handed to `broadcast_log`
in its original untrimmed form, so every open subscriber receives the original
line. -/
theorem c9_broadcaster_drops_blank (st : AppState) (log : String)
    (hnd : (st.subscribers.map Prod.fst).Nodup) :
    ((trimChars log.toList).isEmpty = true → broadcasterStep st log = st) ∧
    ((trimChars log.toList).isEmpty = false →
      broadcasterStep st log = st.broadcast_log log ∧
      ∀ p ∈ st.subscribers, p.2.receiverAlive = true →
        (p.1, { p.2 with buf := p.2.buf ++ [log] })
          ∈ (broadcasterStep st log).subscribers) := by
  constructor
  · intro h
    have h2 : trimChars log.data = [] := List.isEmpty_iff.mp h
    simp [broadcasterStep, h2]
  · intro h
    have h2 : trimChars log.data ≠ [] := by
      intro hnil
      rw [show (trimChars log.toList).isEmpty = true from List.isEmpty_iff.mpr hnil]
        at h
      exact Bool.true_eq_false.mp h
    have heq : broadcasterStep st log = st.broadcast_log log := by
      simp [broadcasterStep, h2]
    refine ⟨heq, fun p hp ha => ?_⟩
    rw [heq]
    exact mem_broadcast_log_of_alive st log p hnd hp ha

/-- C9 witness: a whitespace-only line — including one made solely of
vertical tab, form feed and no-break space, which are Unicode whitespace —
leaves the two-client state untouched, while the line `"hi"` is delivered
untrimmed to client 1. -/
theorem c9_broadcaster_drops_blank_witness :
    broadcasterStep stTwo " \n " = stTwo ∧
    broadcasterStep stTwo "\u000B\u000C\u00A0" = stTwo ∧
    ((1 : Nat), ({ receiverAlive := true, buf := ["hi"] } : Chan))
      ∈ (broadcasterStep stTwo "hi").subscribers :=
  ⟨(c9_broadcaster_drops_blank stTwo " \n " (by decide)).1 (by decide),
   (c9_broadcaster_drops_blank stTwo "\u000B\u000C\u00A0" (by decide)).1 (by decide),
   ((c9_broadcaster_drops_blank stTwo "hi" (by decide)).2 (by decide)).2
     (1, { receiverAlive := true, buf := [] }) (by decide) rfl⟩

/-! ### Hub-trace lemmas -/

/-- Every key in the table after a broadcast was a key before it. -/
theorem broadcast_log_key_mem (st : AppState) (m : String) (p : Nat × Chan)
    (hp : p ∈ (st.broadcast_log m).subscribers) :
    ∃ q ∈ st.subscribers, p.1 = q.1 := by
  rw [broadcast_log_subscribers] at hp
  obtain ⟨q, hq, hfq⟩ := List.mem_map.mp (List.mem_filter.mp hp).1
  refine ⟨q, hq, ?_⟩
  rw [← hfq]
  cases hsend : q.2.send m <;> simp [deliverTo, hsend]

/-- Unfolding one step of `runHub`. -/
theorem runHub_cons (sys : Sys) (op : HubOp) (ops : List HubOp) :
    sys.runHub (op :: ops)
      = (((sys.stepHub op).1.runHub ops).1,
         (sys.stepHub op).2 ++ ((sys.stepHub op).1.runHub ops).2) := by
  cases op <;> rfl

/-- The ids allocated along a hub trace form a strictly increasing chain, and
each of them is at least the counter value at the start of the trace. -/
theorem runHub_ids_mono (sys : Sys) (ops : List HubOp) :
    List.Chain' (· < ·) (sys.runHub ops).2 ∧
    ∀ i ∈ (sys.runHub ops).2, sys.nextClientId ≤ i := by
  induction ops generalizing sys with
  | nil => simp [Sys.runHub]
  | cons op ops ih =>
    rw [runHub_cons]
    cases op with
    | register =>
      obtain ⟨ihc, ihlb⟩ := ih (sys.stepHub .register).1
      have hctr : (sys.stepHub .register).1.nextClientId = sys.nextClientId + 1 := rfl
      have hids : (sys.stepHub .register).2 = [sys.nextClientId] := rfl
      rw [hids]
      constructor
      · rw [List.singleton_append, List.chain'_cons']
        refine ⟨?_, ihc⟩
        intro b hb
        have hmem : b ∈ ((sys.stepHub .register).1.runHub ops).2 :=
          List.mem_of_mem_head? hb
        have := ihlb b hmem
        rw [hctr] at this
        omega
      · intro i hi
        rw [List.singleton_append, List.mem_cons] at hi
        cases hi with
        | inl h => omega
        | inr h =>
          have := ihlb i h
          rw [hctr] at this
          omega
    | unregister id =>
      obtain ⟨ihc, ihlb⟩ := ih (sys.stepHub (.unregister id)).1
      have hids : (sys.stepHub (.unregister id)).2 = [] := rfl
      have hctr : (sys.stepHub (.unregister id)).1.nextClientId
          = sys.nextClientId := rfl
      rw [hids, List.nil_append]
      exact ⟨ihc, by rw [← hctr]; exact ihlb⟩
    | logLine line =>
      obtain ⟨ihc, ihlb⟩ := ih (sys.stepHub (.logLine line)).1
      have hids : (sys.stepHub (.logLine line)).2 = [] := rfl
      have hctr : (sys.stepHub (.logLine line)).1.nextClientId
          = sys.nextClientId := rfl
      rw [hids, List.nil_append]
      exact ⟨ihc, by rw [← hctr]; exact ihlb⟩
    | dropReceiver id =>
      obtain ⟨ihc, ihlb⟩ := ih (sys.stepHub (.dropReceiver id)).1
      have hids : (sys.stepHub (.dropReceiver id)).2 = [] := rfl
      have hctr : (sys.stepHub (.dropReceiver id)).1.nextClientId
          = sys.nextClientId := rfl
      rw [hids, List.nil_append]
      exact ⟨ihc, by rw [← hctr]; exact ihlb⟩

/-- Key-range invariant of hub traces: if the counter is at least 1 and every
key is in `[1, counter)`, both facts persist along any trace. -/
theorem runHub_key_bounds (sys : Sys) (ops : List HubOp)
    (h1 : 1 ≤ sys.nextClientId)
    (h2 : ∀ p ∈ sys.st.subscribers, 1 ≤ p.1 ∧ p.1 < sys.nextClientId) :
    1 ≤ ((sys.runHub ops).1).nextClientId ∧
    ∀ p ∈ ((sys.runHub ops).1).st.subscribers,
      1 ≤ p.1 ∧ p.1 < ((sys.runHub ops).1).nextClientId := by
  induction ops generalizing sys with
  | nil => exact ⟨h1, h2⟩
  | cons op ops ih =>
    rw [runHub_cons]
    apply ih
    · cases op <;> simp [Sys.stepHub, Sys.register_client] <;> omega
    · cases op with
      | register =>
        intro p hp
        have hsub : (sys.stepHub .register).1.st.subscribers
            = insertSub sys.st.subscribers sys.nextClientId
                { receiverAlive := true, buf := [] } := rfl
        rw [hsub, insertSub, List.mem_append] at hp
        have hctr : (sys.stepHub .register).1.nextClientId
            = sys.nextClientId + 1 := rfl
        rw [hctr]
        cases hp with
        | inl h =>
          have := h2 p (List.mem_of_mem_filter h)
          omega
        | inr h =>
          rw [List.mem_singleton] at h
          subst h
          omega
      | unregister id =>
        intro p hp
        have hsub : (sys.stepHub (.unregister id)).1.st.subscribers
            = sys.st.subscribers.filter (fun p => p.1 != id) := rfl
        rw [hsub] at hp
        exact h2 p (List.mem_of_mem_filter hp)
      | logLine line =>
        intro p hp
        have hsub : (sys.stepHub (.logLine line)).1.st.subscribers
            = (broadcasterStep sys.st line).subscribers := rfl
        rw [hsub] at hp
        by_cases hbl : trimChars line.data = []
        · have hskip : broadcasterStep sys.st line = sys.st := by
            simp [broadcasterStep, hbl]
          rw [hskip] at hp
          exact h2 p hp
        · have hgo : broadcasterStep sys.st line = sys.st.broadcast_log line := by
            simp [broadcasterStep, hbl]
          rw [hgo] at hp
          obtain ⟨q, hq, hkey⟩ := broadcast_log_key_mem sys.st line p hp
          rw [hkey]
          exact h2 q hq
      | dropReceiver id =>
        intro p hp
        have hsub : (sys.stepHub (.dropReceiver id)).1.st.subscribers
            = dropReceiverIn sys.st.subscribers id := rfl
        rw [hsub] at hp
        obtain ⟨q, hq, hfq⟩ := List.mem_map.mp hp
        have hkey : p.1 = q.1 := by
          rw [← hfq]
          by_cases hqe : q.1 == id <;> simp [hqe]
        rw [hkey]
        exact h2 q hq

/-! ### Claim C7 -/

/-- C7 (confirmed): over any sequence of hub operations from process start,
the client ids returned by the registrations form a strictly increasing
sequence — hence each id is unique for the process lifetime and never reused,
even after its client unregisters; moreover a single `register_client` call
allocates exactly the current counter value, bumps the counter, creates a
fresh empty channel, stores its send-end under the new id and hands back the
same channel's receive-end. -/
theorem c7_client_ids_strictly_increasing :
    (∀ ops : List HubOp, List.Chain' (· < ·) (Sys.init.runHub ops).2) ∧
    (∀ sys : Sys,
      (sys.register_client).1.1 = sys.nextClientId ∧
      (sys.register_client).1.2 = { receiverAlive := true, buf := [] } ∧
      (sys.register_client).2.nextClientId = sys.nextClientId + 1 ∧
      ((sys.register_client).1.1, (sys.register_client).1.2)
        ∈ (sys.register_client).2.st.subscribers) := by
  constructor
  · intro ops
    exact (runHub_ids_mono Sys.init ops).1
  · intro sys
    refine ⟨rfl, rfl, rfl, ?_⟩
    simp [Sys.register_client, insertSub]

/-- C7 witness: the first conjunct at a concrete three-operation trace, the
second at a concrete system state. -/
theorem c7_client_ids_strictly_increasing_witness :
    List.Chain' (· < ·)
      (Sys.init.runHub [.register, .unregister 1, .register]).2 ∧
    (({ st := stTwo, nextClientId := 3 : Sys }).register_client).1.1 = 3 :=
  ⟨c7_client_ids_strictly_increasing.1 [.register, .unregister 1, .register],
   (c7_client_ids_strictly_increasing.2 { st := stTwo, nextClientId := 3 }).1⟩

/-! ### Claim C10 -/

/-- C10 (confirmed): client id 0 is never allocated (the counter starts at 1),
so along any hub trace from process start 0 is never a key of the subscriber
table, and a shutdown-time `unregister_client 0` — as issued by a session
whose registration never completed and whose `client_id` still holds the
default 0 — removes nothing and leaves the state exactly as it was. -/
theorem c10_zero_id_harmless (ops : List HubOp) :
    (∀ c : Chan, (0, c) ∉ ((Sys.init.runHub ops).1).st.subscribers) ∧
    ((Sys.init.runHub ops).1).st.unregister_client 0
      = ((Sys.init.runHub ops).1).st := by
  have hb := runHub_key_bounds Sys.init ops (by decide)
    (by intro p hp; simp [Sys.init, AppState.new] at hp)
  constructor
  · intro c hc
    have := (hb.2 (0, c) hc).1
    omega
  · unfold AppState.unregister_client
    have hfil : ((Sys.init.runHub ops).1).st.subscribers.filter (fun p => p.1 != 0)
        = ((Sys.init.runHub ops).1).st.subscribers := by
      apply List.filter_eq_self.mpr
      intro p hp
      have := (hb.2 p hp).1
      simp only [bne_iff_ne, ne_eq]
      omega
    rw [hfil]

/-- C10 witness: after two registrations (ids 1 and 2), id 0 keys no entry and
unregistering 0 is a no-op, observed concretely. -/
theorem c10_zero_id_harmless_witness :
    ((0 : Nat), ({ receiverAlive := true, buf := [] } : Chan))
      ∉ ((Sys.init.runHub [.register, .register]).1).st.subscribers ∧
    ((Sys.init.runHub [.register, .register]).1).st.unregister_client 0
      = ((Sys.init.runHub [.register, .register]).1).st :=
  ⟨(c10_zero_id_harmless [.register, .register]).1 _,
   (c10_zero_id_harmless [.register, .register]).2⟩

/-! ### Claim C8 -/

/-- C8 (confirmed): when the heartbeat timer fires at time `t` on a live
session and no liveness signal was recorded within `CLIENT_TIMEOUT` (10
time-units) of `t`, the session stops itself (`ctx.stop`, so the actor's
`stopping` hook runs) and its client id is removed from the subscriber table;
conversely a session whose every timer tick happens within the timeout of the
latest recorded pong is never terminated by the heartbeat check. -/
theorem c8_heartbeat_timeout :
    (∀ (s : ConsoleWebSocket) (st : AppState) (t : Nat),
      s.alive = true → hbTimedOut t s.last_heartbeat = true →
      (stepWs s st (.hbTick t)).1.alive = false ∧
      ∀ c : Chan, (s.client_id, c) ∉ (stepWs s st (.hbTick t)).2.subscribers) ∧
    (∀ (s : ConsoleWebSocket) (st : AppState) (es : List WsEvent),
      s.alive = true → pongsWithinTimeout s.last_heartbeat es = true →
      (runWs s st es).1.alive = true) := by
  constructor
  · intro s st t halive htime
    constructor
    · simp [stepWs, halive, htime]
    · intro c hc
      simp only [stepWs, halive, htime, if_true] at hc
      have := (List.mem_filter.mp hc).2
      simp at this
  · intro s st es
    induction es generalizing s st with
    | nil =>
      intro halive _
      simpa [runWs] using halive
    | cons e es ih =>
      intro halive htimely
      cases e with
      | pong t =>
        rw [pongsWithinTimeout] at htimely
        have hstep : runWs s st (.pong t :: es)
            = runWs { s with last_heartbeat := t } st es := by
          simp [runWs, stepWs, halive]
        rw [hstep]
        exact ih { s with last_heartbeat := t } st halive htimely
      | hbTick t =>
        rw [pongsWithinTimeout, Bool.and_eq_true] at htimely
        obtain ⟨hle, hrest⟩ := htimely
        have hnt : hbTimedOut t s.last_heartbeat = false := by
          simp only [hbTimedOut, decide_eq_false_iff_not, not_lt]
          simpa using hle
        have hstep : runWs s st (.hbTick t :: es) = runWs s st es := by
          simp [runWs, stepWs, halive, hnt]
        rw [hstep]
        exact ih s st halive hrest

/-- C8 witness: a live session last refreshed at time 0 is stopped by the tick
at time 11 and its id 1 leaves the two-client table, while the session that
keeps ponging (pong at 4, ticks at 5 and 10) survives. -/
theorem c8_heartbeat_timeout_witness :
    ((stepWs { last_heartbeat := 0, client_id := 1, alive := true } stTwo
        (.hbTick 11)).1.alive = false ∧
     ∀ c : Chan, ((1 : Nat), c)
        ∉ (stepWs { last_heartbeat := 0, client_id := 1, alive := true } stTwo
            (.hbTick 11)).2.subscribers) ∧
    (runWs { last_heartbeat := 0, client_id := 1, alive := true } stTwo
        [.hbTick 5, .pong 4, .hbTick 10]).1.alive = true :=
  ⟨c8_heartbeat_timeout.1 { last_heartbeat := 0, client_id := 1, alive := true }
      stTwo 11 rfl (by decide),
   c8_heartbeat_timeout.2 { last_heartbeat := 0, client_id := 1, alive := true }
      stTwo [.hbTick 5, .pong 4, .hbTick 10] rfl (by decide)⟩

end MinecraftConsole
